import Mathlib

/-!
Verification of the graph-visualization data pipeline in
`visualize_network.py`: the two ingestion adapters
(`load_graph_data_neo4j`, `load_graph_data_sql`), the element model they
produce, the style derivation (`create_dynamic_styles`), and the
load/render control flow around them.

The embedding is shallow: Python dictionaries become association lists
over a tagged value type `PyVal`; the Neo4j driver objects become plain
structures carrying exactly the fields the script reads; pandas data
frames become a column list plus rows; exceptions become `Except`.
-/

set_option maxHeartbeats 1000000

namespace VisualizeNetwork

/-- A Python value as it can appear in a property bag coming from either
data store.  `temporal` stands for a driver date/time object, carrying
its ISO-8601 string representation; it is a distinct constructor from
`str` because the script never converts such objects. -/
inductive PyVal where
  | none : PyVal
  | bool : Bool → PyVal
  | int : Int → PyVal
  | str : String → PyVal
  | temporal : String → PyVal
  | list : List PyVal → PyVal
  | dict : List (String × PyVal) → PyVal

/-- A Python dictionary with string keys, in insertion order. -/
abbrev Dict := List (String × PyVal)

/-- Lookup of the first binding of a key (Python `d[k]` / `d.get(k)`;
keys are unique in every dictionary the script builds). -/
def assocGet {α : Type} : List (String × α) → String → Option α
  | [], _ => Option.none
  | (k2, v) :: rest, k => if k2 = k then some v else assocGet rest k

/-- Python `d.get(k, default)`. -/
def dictGetD (d : Dict) (k : String) (v0 : PyVal) : PyVal :=
  (assocGet d k).getD v0

/-- Python `d[k] = v`: overwrite the binding in place if the key is
present, otherwise append it (insertion-order semantics of `dict`). -/
def dictSet : Dict → String → PyVal → Dict
  | [], k, v => [(k, v)]
  | (k2, v2) :: rest, k, v =>
      if k2 = k then (k, v) :: rest else (k2, v2) :: dictSet rest k v

mutual
/-- Python `repr` of a value.  Scalar renderings are exact; the
rendering of a `temporal` is modelled as its ISO string (the script
never applies `str`/`repr` to one on any path a claim exercises). -/
def pyRepr : PyVal → String
  | .none => "None"
  | .bool b => if b then "True" else "False"
  | .int i => toString i
  | .str s => "\x27" ++ s ++ "\x27"
  | .temporal iso => iso
  | .list l => "[" ++ pyReprListAux l ++ "]"
  | .dict d => "\x7b" ++ pyReprDictAux d ++ "\x7d"

def pyReprListAux : List PyVal → String
  | [] => ""
  | [v] => pyRepr v
  | v :: rest => pyRepr v ++ ", " ++ pyReprListAux rest

def pyReprDictAux : List (String × PyVal) → String
  | [] => ""
  | [(k, v)] => "\x27" ++ k ++ "\x27: " ++ pyRepr v
  | (k, v) :: rest => "\x27" ++ k ++ "\x27: " ++ pyRepr v ++ ", " ++ pyReprDictAux rest
end

/-- Python `str` of a value (`str` on a string is the identity,
everything else renders like `repr`). -/
def pyStr : PyVal → String
  | .str s => s
  | v => pyRepr v

/-- Python truthiness, as used by `x or y`. -/
def pyTruthy : PyVal → Bool
  | .none => false
  | .bool b => b
  | .int i => i != 0
  | .str s => !s.isEmpty
  | .temporal _ => true
  | .list l => !l.isEmpty
  | .dict d => !d.isEmpty

/-- Python `a or b`. -/
def pyOr (a b : PyVal) : PyVal := if pyTruthy a then a else b

/-- The constant `DEFAULT_NODE_LABEL = "Observation"` — fallback label if none is
available. -/
def DEFAULT_NODE_LABEL : String := "Observation"

/-- The canonical element model handed to the renderer.  The script
wraps each dictionary as `{"data": d}` inside `elements["nodes"]` /
`elements["edges"]`; since the wrapper is applied uniformly and peeled
off (`node["data"]`, `edge["data"]`) wherever the lists are read, the
model carries the `data` payloads directly. -/
structure Elements where
  nodes : List Dict
  edges : List Dict

/-! ## Neo4j adapter -/

/-- A node object returned by the Neo4j driver: the fields the script
reads are `.id` (an integer), `.labels` (a frozenset of strings, read
into a list) and the property bag (`.keys()` / `[key]`). -/
structure NeoNode where
  id : Int
  labels : List String
  props : Dict

/-- The relationship value bound to `r`.  With the official driver it is
a structured object with `.id`, `.type`, `.start_node`, `.end_node` and
a property bag; some client versions instead return a plain
(start-properties, type, end-properties) triple. -/
inductive NeoRel where
  | structured (id : Int) (type : String) (startId : Int) (endId : Int) (props : Dict) : NeoRel
  | legacyTriple (startProps : Dict) (type : String) (endProps : Dict) : NeoRel

/-- One record of the Cypher query result, binding columns n, r, m. -/
structure NeoRecord where
  n : NeoNode
  r : NeoRel
  m : NeoNode

def structuredRel : NeoRel → Bool
  | .structured _ _ _ _ _ => true
  | .legacyTriple _ _ _ => false

/-- The label text `":".join(labels) if labels else DEFAULT_NODE_LABEL`. -/
def neoDisplayLabel (obj : NeoNode) : String :=
  if obj.labels.isEmpty then DEFAULT_NODE_LABEL
  else String.intercalate ":" obj.labels

/-- The node dictionary built for an unseen node (same code for `n` and
`m`): copy all properties, then set `id`, `labels`, `label`, and finally
`name = n_data.get(display_property, display_label)` — the `get` runs on
the dictionary that already contains the meta fields. -/
def buildNodeData (display_property : String) (obj : NeoNode) : Dict :=
  let n_id := toString obj.id
  let d0 := obj.props
  let d1 := dictSet d0 "id" (.str n_id)
  let d2 := dictSet d1 "labels" (.list (obj.labels.map PyVal.str))
  let display_label := neoDisplayLabel obj
  let d3 := dictSet d2 "label" (.str display_label)
  dictSet d3 "name" (dictGetD d3 display_property (.str display_label))

/-- The guard `if n_id not in nodes_dict: ... nodes_dict[n_id] = n_data` — the
nodes dictionary keeps the first occurrence of each id and is left
untouched on every later occurrence. -/
def procNode (display_property : String) (nodes_dict : List (String × Dict))
    (obj : NeoNode) : List (String × Dict) :=
  let n_id := toString obj.id
  if (nodes_dict.map Prod.fst).contains n_id then nodes_dict
  else nodes_dict ++ [(n_id, buildNodeData display_property obj)]

/-- The edge dictionary built from a structured relationship: copy all
relationship properties, then set `id = str(r.id)`,
`source = str(r.start_node.id)`, `target = str(r.end_node.id)`,
`label = r.type`. -/
def buildRelData (rid : Int) (rtype : String) (startId endId : Int)
    (props : Dict) : Dict :=
  let d1 := dictSet props "id" (.str (toString rid))
  let d2 := dictSet d1 "source" (.str (toString startId))
  let d3 := dictSet d2 "target" (.str (toString endId))
  dictSet d3 "label" (.str rtype)

/-- The message of the exception raised by
`{key: r_obj[key] for key in r_obj.keys()}` when `r_obj` is a plain
tuple rather than a relationship object (the quote characters of the
CPython message are omitted). -/
def tupleKeysError : String :=
  "AttributeError: tuple object has no attribute keys"

/-- Processing of the relationship value `r`: the script reads
`r_obj.keys()`, `.id`, `.start_node`, `.end_node`, `.type`
unconditionally, so a non-structured value raises. -/
def procRel : NeoRel → Except String Dict
  | .structured rid rtype startId endId props =>
      .ok (buildRelData rid rtype startId endId props)
  | .legacyTriple _ _ _ => .error tupleKeysError

/-- One iteration of the record loop: process node `n`, node `m`, then
relationship `r` (an exception in the relationship step aborts the whole
load, discarding the state). -/
def neoStep (display_property : String)
    (st : List (String × Dict) × List Dict) (rec : NeoRecord) :
    Except String (List (String × Dict) × List Dict) :=
  let nd := procNode display_property st.1 rec.n
  let nd2 := procNode display_property nd rec.m
  match procRel rec.r with
  | .error e => .error e
  | .ok edge => .ok (nd2, st.2 ++ [edge])

/-- The record loop over the (lazily consumed) query result.  An
`Except.error` element models the driver raising during query execution
or row iteration at that point of the stream. -/
def neoFold (display_property : String) :
    List (Except String NeoRecord) → List (String × Dict) × List Dict →
    Except String (List (String × Dict) × List Dict)
  | [], st => .ok st
  | .error e :: _, _ => .error e
  | .ok rec :: rest, st =>
      match neoStep display_property st rec with
      | .error e => .error e
      | .ok st2 => neoFold display_property rest st2

/-- The function `load_graph_data_neo4j`: run the query, fold over the records, and
return `{"nodes": [{"data": d} for d in nodes_dict.values()], "edges":
[{"data": e} for e in edges_list]}`.  Connection parameters are dropped:
their only role is to produce the record stream, which is the
argument here. -/
def load_graph_data_neo4j (display_property : String)
    (records : List (Except String NeoRecord)) : Except String Elements :=
  match neoFold display_property records ([], []) with
  | .error e => .error e
  | .ok st => .ok ⟨st.1.map Prod.snd, st.2⟩

/-- The `Load Data from Neo4j` button handler: `try: elements = ...;
except Exception as e: st.error(f"Error loading data from Neo4j: ...")`.
Returns the `elements` variable (fed to the renderer iff not `None`) and
the error banner text. -/
def neo4j_load_handler (display_property : String)
    (records : List (Except String NeoRecord)) :
    Option Elements × Option String :=
  match load_graph_data_neo4j display_property records with
  | .ok el => (some el, Option.none)
  | .error e => (Option.none, some ("Error loading data from Neo4j: " ++ e))

/-! ## Relational (SQL) adapter -/

/-- The result of one `pd.read_sql_query`: the columns of the result
set and the rows as value lists aligned with the columns. -/
structure DF where
  cols : List String
  rows : List (List PyVal)

/-- Python `row.to_dict()`: one row as a column-name-to-value dictionary. -/
def rowToDict (df : DF) (row : List PyVal) : Dict := df.cols.zip row

/-- The six column-name mappings of the schema-mapping sidebar. -/
structure SqlCfg where
  node_id_col : String
  node_label_col : String
  node_name_col : String
  rel_source_col : String
  rel_target_col : String
  rel_type_col : String

/-- The id resolution `node_id = str(node_data.get(node_id_col))` — the lookup runs on
the raw row dictionary, `get` of a missing column yields `None`, and
`str(None)` is the string `"None"`. -/
def sqlNodeId (cfg : SqlCfg) (row : Dict) : String :=
  pyStr ((assocGet row cfg.node_id_col).getD .none)

/-- The node dictionary built from an unseen row: set `id`, then
`label = node_data.get(node_label_col, "") or DEFAULT_NODE_LABEL`, then
`name = node_data.get(node_name_col, node_label)`; each `get` runs on
the dictionary as already mutated by the earlier assignments. -/
def sqlNodeData (cfg : SqlCfg) (row : Dict) : Dict :=
  let d1 := dictSet row "id" (.str (sqlNodeId cfg row))
  let node_label := pyOr (dictGetD d1 cfg.node_label_col (.str "")) (.str DEFAULT_NODE_LABEL)
  let d2 := dictSet d1 "label" node_label
  dictSet d2 "name" (dictGetD d2 cfg.node_name_col node_label)

/-- The node loop: `if node_id in nodes_seen: continue` — the seen-set
and the appended elements list move in lockstep, so they are modelled
together as an association list keyed by the resolved id. -/
def sqlProcNode (cfg : SqlCfg) (acc : List (String × Dict)) (row : Dict) :
    List (String × Dict) :=
  let node_id := sqlNodeId cfg row
  if (acc.map Prod.fst).contains node_id then acc
  else acc ++ [(node_id, sqlNodeData cfg row)]

/-- The edge dictionary built from relationship row number `idx`:
`id = f"edge_{idx}"`, then `source`/`target` via
`str(edge_data.get(col))`, then `label = edge_data.get(rel_type_col,
"RELATED")`; each `get` runs on the already-mutated dictionary. -/
def sqlEdgeData (cfg : SqlCfg) (idx : Nat) (row : Dict) : Dict :=
  let d1 := dictSet row "id" (.str ("edge_" ++ toString idx))
  let d2 := dictSet d1 "source" (.str (pyStr ((assocGet d1 cfg.rel_source_col).getD .none)))
  let d3 := dictSet d2 "target" (.str (pyStr ((assocGet d2 cfg.rel_target_col).getD .none)))
  dictSet d3 "label" (dictGetD d3 cfg.rel_type_col (.str "RELATED"))

/-- The function `load_graph_data_sql`: read both data frames, dedup-process the
node rows, and build one edge per relationship row (`iterrows` on a
freshly read frame enumerates rows `0, 1, 2, ...`). -/
def load_graph_data_sql (cfg : SqlCfg) (nodes_df relationships_df : DF) : Elements :=
  let nodeRows := nodes_df.rows.map (rowToDict nodes_df)
  let relRows := relationships_df.rows.map (rowToDict relationships_df)
  ⟨(nodeRows.foldl (sqlProcNode cfg) []).map Prod.snd,
   relRows.enum.map (fun p => sqlEdgeData cfg p.1 p.2)⟩

/-- The two `pd.read_sql_query` calls run before any row processing; a
failure of either aborts the load (nodes query is read first). -/
def load_graph_data_sql_run (cfg : SqlCfg)
    (nodesRes relsRes : Except String DF) : Except String Elements :=
  match nodesRes with
  | .error e => .error e
  | .ok ndf =>
      match relsRes with
      | .error e => .error e
      | .ok rdf => .ok (load_graph_data_sql cfg ndf rdf)

/-- The `Load Data from Relational DB` button handler with its
`try`/`except` wrapper. -/
def sql_load_handler (cfg : SqlCfg) (nodesRes relsRes : Except String DF) :
    Option Elements × Option String :=
  match load_graph_data_sql_run cfg nodesRes relsRes with
  | .ok el => (some el, Option.none)
  | .error e => (Option.none, some ("Error loading data from SQL: " ++ e))

/-! ## Style derivation -/

mutual
/-- Python `==` on values, as used by `set` membership.  On the scalar
and recursively on composite values this mirrors Python equality; it is
only used to model the label sets in `create_dynamic_styles`. -/
def pyBeq : PyVal → PyVal → Bool
  | .none, .none => true
  | .bool a, .bool b => a == b
  | .int a, .int b => a == b
  | .str a, .str b => a == b
  | .temporal a, .temporal b => a == b
  | .list a, .list b => pyBeqList a b
  | .dict a, .dict b => pyBeqDict a b
  | _, _ => false

def pyBeqList : List PyVal → List PyVal → Bool
  | [], [] => true
  | a :: as2, b :: bs2 => pyBeq a b && pyBeqList as2 bs2
  | _, _ => false

def pyBeqDict : List (String × PyVal) → List (String × PyVal) → Bool
  | [], [] => true
  | (ka, va) :: as2, (kb, vb) :: bs2 => ka == kb && pyBeq va vb && pyBeqDict as2 bs2
  | _, _ => false
end

/-- Python `set.add`: keep the collection duplicate-free under Python
equality.  The Python set iteration order is unspecified; the sort below
makes the modelled first-insertion order immaterial. -/
def setInsert (l : List PyVal) (v : PyVal) : List PyVal :=
  if l.any (fun x => pyBeq x v) then l else l ++ [v]

/-- The set of the values of a list, built by repeated `add`. -/
def setOfList (l : List PyVal) : List PyVal := l.foldl setInsert []

/-- Lexicographic comparison of character sequences by code point —
exactly how Python compares two strings. -/
def charListLe : List Char → List Char → Bool
  | [], _ => true
  | _ :: _, [] => false
  | a :: as2, b :: bs2 =>
      if a.toNat < b.toNat then true
      else if b.toNat < a.toNat then false
      else charListLe as2 bs2

/-- Python `x <= y` on strings. -/
def pyStrLe (x y : String) : Bool := charListLe x.data y.data

/-- The comparison used by `sorted(...)` on the label sets.  All labels
the script compares are strings and compare lexicographically; on a
heterogeneous set Python `sorted` would raise `TypeError`, a case no
adapter output within the claims reaches, so the model extends the
order arbitrarily instead of failing. -/
def pyValLe (a b : PyVal) : Bool :=
  match a, b with
  | .str x, .str y => pyStrLe x y
  | _, _ => true

def insertSorted (a : PyVal) : List PyVal → List PyVal
  | [] => [a]
  | b :: bs => if pyValLe a b then a :: b :: bs else b :: insertSorted a bs

/-- Python `sorted(...)`: a stable ascending sort (insertion sort produces the
same list as the Python sort for every total, transitive comparison). -/
def pySorted : List PyVal → List PyVal
  | [] => []
  | a :: rest => insertSorted a (pySorted rest)

/-- The style value `NodeStyle(label, color, "name", "circle")`. -/
structure NodeStyle where
  label : PyVal
  color : String
  caption : String
  shape : String

/-- The style value `EdgeStyle(rel, caption=None, directed=True)`. -/
structure EdgeStyle where
  label : PyVal
  caption : Option String
  directed : Bool

/-- The list `default_colors` — the fixed five-color palette. -/
def default_colors : List String :=
  ["#2A629A", "#FF7F3E", "#C0C0C0", "#008000", "#800080"]

/-- The node labels read by the style loop:
`node["data"].get("label", DEFAULT_NODE_LABEL)` for each node. -/
def nodeLabelVals (elements : Elements) : List PyVal :=
  elements.nodes.map (fun d => dictGetD d "label" (.str DEFAULT_NODE_LABEL))

/-- The edge labels read by the style loop:
`edge["data"].get("label", "RELATED")` for each edge. -/
def edgeLabelVals (elements : Elements) : List PyVal :=
  elements.edges.map (fun d => dictGetD d "label" (.str "RELATED"))

/-- The function `create_dynamic_styles`: one `NodeStyle` per distinct node label
with round-robin palette colors over the sorted labels, one directed
caption-less `EdgeStyle` per distinct relationship type. -/
def create_dynamic_styles (elements : Elements) : List NodeStyle × List EdgeStyle :=
  let node_labels := setOfList (nodeLabelVals elements)
  let rel_types := setOfList (edgeLabelVals elements)
  let node_styles := (pySorted node_labels).enum.map
    (fun p => ⟨p.2, default_colors.getD (p.1 % default_colors.length) "", "name", "circle"⟩)
  let edge_styles := (pySorted rel_types).map
    (fun rel => ⟨rel, Option.none, true⟩)
  (node_styles, edge_styles)

/-! ## Spec-side definitions (for refinement comparison only)

The two definitions below are written from the specification text, not
from the source; they state what the Element Normalizer of the spec (§4.3)
would do to a property value, for comparison with what the adapters
actually attach. -/

mutual
/-- From the spec, §4.3: a date/time-like value is converted to its
ISO-8601 string representation; an ordered sequence is converted
element-wise; a key-value mapping is converted key-by-key; every other
value passes through unchanged. -/
def spec_normalize : PyVal → PyVal
  | .temporal iso => .str iso
  | .list l => .list (spec_normalize_list l)
  | .dict d => .dict (spec_normalize_entries d)
  | v => v

def spec_normalize_list : List PyVal → List PyVal
  | [] => []
  | v :: rest => spec_normalize v :: spec_normalize_list rest

def spec_normalize_entries : List (String × PyVal) → List (String × PyVal)
  | [] => []
  | (k, v) :: rest => (k, spec_normalize v) :: spec_normalize_entries rest
end

mutual
/-- From the spec, §4.3/§8: a value survives a round trip through a
textual interchange encoding (JSON) exactly when no temporal object
occurs in it — a temporal value cannot be encoded by the text codec at
all, so it decodes to an equal value on no path. -/
def specJsonSerializable : PyVal → Bool
  | .none => true
  | .bool _ => true
  | .int _ => true
  | .str _ => true
  | .temporal _ => false
  | .list l => specJsonSerializableList l
  | .dict d => specJsonSerializableEntries d

def specJsonSerializableList : List PyVal → Bool
  | [] => true
  | v :: rest => specJsonSerializable v && specJsonSerializableList rest

def specJsonSerializableEntries : List (String × PyVal) → Bool
  | [] => true
  | (_, v) :: rest => specJsonSerializable v && specJsonSerializableEntries rest
end

/-! ## Dictionary lemmas -/

theorem assocGet_dictSet_self (d : Dict) (k : String) (v : PyVal) :
    assocGet (dictSet d k v) k = some v := by
  induction d with
  | nil => simp [dictSet, assocGet]
  | cons p rest ih =>
      by_cases h : p.1 = k
      · simp [dictSet, h, assocGet]
      · simp [dictSet, h, assocGet, ih]

theorem assocGet_dictSet_ne (d : Dict) (k : String) (v : PyVal) (k2 : String)
    (h : k2 ≠ k) : assocGet (dictSet d k v) k2 = assocGet d k2 := by
  have h2 : k ≠ k2 := Ne.symm h
  induction d with
  | nil => simp [dictSet, assocGet, h2]
  | cons p rest ih =>
      by_cases hp : p.1 = k
      · have hpk2 : p.1 ≠ k2 := by rw [hp]; exact h2
        simp [dictSet, hp, assocGet, h2, hpk2]
      · simp [dictSet, hp, assocGet, ih]

theorem assocGet_append {α : Type} (l1 l2 : List (String × α)) (k : String) :
    assocGet (l1 ++ l2) k =
      match assocGet l1 k with
      | some v => some v
      | Option.none => assocGet l2 k := by
  induction l1 with
  | nil => simp [assocGet]
  | cons p rest ih =>
      by_cases h : p.1 = k
      · simp [assocGet, h]
      · simp [assocGet, h, ih]

theorem contains_eq_isSome_assocGet {α : Type} (l : List (String × α)) (k : String) :
    (l.map Prod.fst).contains k = (assocGet l k).isSome := by
  induction l with
  | nil => rfl
  | cons p rest ih =>
      by_cases h : p.1 = k
      · simp [assocGet, h]
      · have hb : (k == p.1) = false := by simp [Ne.symm h]
        simp [assocGet, h, List.contains_cons, hb, ← ih]

theorem assocGet_zip_of_not_mem {α : Type} (cols : List String) (vals : List α)
    (k : String) (h : k ∉ cols) : assocGet (cols.zip vals) k = Option.none := by
  induction cols generalizing vals with
  | nil => simp [assocGet]
  | cons c rest ih =>
      cases vals with
      | nil => simp [assocGet]
      | cons v vs =>
          have hc : c ≠ k := fun hh => h (hh ▸ List.mem_cons_self c rest)
          simp [List.zip_cons_cons, assocGet, hc]
          exact ih vs (fun hh => h (List.mem_cons_of_mem c hh))

/-! ## Per-element construction lemmas -/

theorem buildNodeData_id (dp : String) (obj : NeoNode) :
    assocGet (buildNodeData dp obj) "id" = some (.str (toString obj.id)) := by
  unfold buildNodeData
  rw [assocGet_dictSet_ne _ _ _ _ (by decide),
      assocGet_dictSet_ne _ _ _ _ (by decide),
      assocGet_dictSet_ne _ _ _ _ (by decide),
      assocGet_dictSet_self]

theorem buildNodeData_label (dp : String) (obj : NeoNode) :
    assocGet (buildNodeData dp obj) "label" = some (.str (neoDisplayLabel obj)) := by
  unfold buildNodeData
  rw [assocGet_dictSet_ne _ _ _ _ (by decide), assocGet_dictSet_self]

theorem buildNodeData_name (dp : String) (obj : NeoNode) :
    assocGet (buildNodeData dp obj) "name" =
      some (dictGetD
        (dictSet (dictSet (dictSet obj.props "id" (.str (toString obj.id)))
            "labels" (.list (obj.labels.map PyVal.str)))
          "label" (.str (neoDisplayLabel obj)))
        dp (.str (neoDisplayLabel obj))) := by
  unfold buildNodeData
  rw [assocGet_dictSet_self]

theorem buildNodeData_other (dp : String) (obj : NeoNode) (k : String)
    (h1 : k ≠ "id") (h2 : k ≠ "labels") (h3 : k ≠ "label") (h4 : k ≠ "name") :
    assocGet (buildNodeData dp obj) k = assocGet obj.props k := by
  unfold buildNodeData
  rw [assocGet_dictSet_ne _ _ _ _ h4, assocGet_dictSet_ne _ _ _ _ h3,
      assocGet_dictSet_ne _ _ _ _ h2, assocGet_dictSet_ne _ _ _ _ h1]

theorem buildRelData_id (rid : Int) (rtype : String) (startId endId : Int) (props : Dict) :
    assocGet (buildRelData rid rtype startId endId props) "id" =
      some (.str (toString rid)) := by
  unfold buildRelData
  rw [assocGet_dictSet_ne _ _ _ _ (by decide),
      assocGet_dictSet_ne _ _ _ _ (by decide),
      assocGet_dictSet_ne _ _ _ _ (by decide),
      assocGet_dictSet_self]

theorem buildRelData_source (rid : Int) (rtype : String) (startId endId : Int) (props : Dict) :
    assocGet (buildRelData rid rtype startId endId props) "source" =
      some (.str (toString startId)) := by
  unfold buildRelData
  rw [assocGet_dictSet_ne _ _ _ _ (by decide),
      assocGet_dictSet_ne _ _ _ _ (by decide),
      assocGet_dictSet_self]

theorem buildRelData_target (rid : Int) (rtype : String) (startId endId : Int) (props : Dict) :
    assocGet (buildRelData rid rtype startId endId props) "target" =
      some (.str (toString endId)) := by
  unfold buildRelData
  rw [assocGet_dictSet_ne _ _ _ _ (by decide), assocGet_dictSet_self]

theorem buildRelData_label (rid : Int) (rtype : String) (startId endId : Int) (props : Dict) :
    assocGet (buildRelData rid rtype startId endId props) "label" =
      some (.str rtype) := by
  unfold buildRelData
  rw [assocGet_dictSet_self]

theorem buildRelData_other (rid : Int) (rtype : String) (startId endId : Int)
    (props : Dict) (k : String)
    (h1 : k ≠ "id") (h2 : k ≠ "source") (h3 : k ≠ "target") (h4 : k ≠ "label") :
    assocGet (buildRelData rid rtype startId endId props) k = assocGet props k := by
  unfold buildRelData
  rw [assocGet_dictSet_ne _ _ _ _ h4, assocGet_dictSet_ne _ _ _ _ h3,
      assocGet_dictSet_ne _ _ _ _ h2, assocGet_dictSet_ne _ _ _ _ h1]

theorem sqlNodeData_id (cfg : SqlCfg) (row : Dict) :
    assocGet (sqlNodeData cfg row) "id" = some (.str (sqlNodeId cfg row)) := by
  unfold sqlNodeData
  rw [assocGet_dictSet_ne _ _ _ _ (by decide),
      assocGet_dictSet_ne _ _ _ _ (by decide),
      assocGet_dictSet_self]

theorem sqlNodeData_label (cfg : SqlCfg) (row : Dict) :
    assocGet (sqlNodeData cfg row) "label" =
      some (pyOr (dictGetD (dictSet row "id" (.str (sqlNodeId cfg row)))
          cfg.node_label_col (.str ""))
        (.str DEFAULT_NODE_LABEL)) := by
  unfold sqlNodeData
  rw [assocGet_dictSet_ne _ _ _ _ (by decide), assocGet_dictSet_self]

theorem sqlNodeData_other (cfg : SqlCfg) (row : Dict) (k : String)
    (h1 : k ≠ "id") (h2 : k ≠ "label") (h3 : k ≠ "name") :
    assocGet (sqlNodeData cfg row) k = assocGet row k := by
  unfold sqlNodeData
  rw [assocGet_dictSet_ne _ _ _ _ h3, assocGet_dictSet_ne _ _ _ _ h2,
      assocGet_dictSet_ne _ _ _ _ h1]

theorem sqlEdgeData_id (cfg : SqlCfg) (idx : Nat) (row : Dict) :
    assocGet (sqlEdgeData cfg idx row) "id" =
      some (.str ("edge_" ++ toString idx)) := by
  unfold sqlEdgeData
  rw [assocGet_dictSet_ne _ _ _ _ (by decide),
      assocGet_dictSet_ne _ _ _ _ (by decide),
      assocGet_dictSet_ne _ _ _ _ (by decide),
      assocGet_dictSet_self]

theorem sqlEdgeData_label (cfg : SqlCfg) (idx : Nat) (row : Dict) :
    assocGet (sqlEdgeData cfg idx row) "label" =
      some (dictGetD
        (dictSet (dictSet (dictSet row "id" (.str ("edge_" ++ toString idx)))
            "source" (.str (pyStr ((assocGet (dictSet row "id" (.str ("edge_" ++ toString idx)))
              cfg.rel_source_col).getD .none))))
          "target" (.str (pyStr ((assocGet (dictSet (dictSet row "id"
              (.str ("edge_" ++ toString idx))) "source"
              (.str (pyStr ((assocGet (dictSet row "id" (.str ("edge_" ++ toString idx)))
                cfg.rel_source_col).getD .none))))
            cfg.rel_target_col).getD .none))))
        cfg.rel_type_col (.str "RELATED")) := by
  unfold sqlEdgeData
  rw [assocGet_dictSet_self]

theorem sqlEdgeData_other (cfg : SqlCfg) (idx : Nat) (row : Dict) (k : String)
    (h1 : k ≠ "id") (h2 : k ≠ "source") (h3 : k ≠ "target") (h4 : k ≠ "label") :
    assocGet (sqlEdgeData cfg idx row) k = assocGet row k := by
  unfold sqlEdgeData
  rw [assocGet_dictSet_ne _ _ _ _ h4, assocGet_dictSet_ne _ _ _ _ h3,
      assocGet_dictSet_ne _ _ _ _ h2, assocGet_dictSet_ne _ _ _ _ h1]

/-! ## First-wins deduplication -/

/-- The elements of a list whose key has not been seen before: the
first element of each key is kept, every later one is discarded.  This
is the reference description of what both node loops do. -/
def dedupByFirst {α : Type} (keyf : α → String) : List α → List String → List α
  | [], _ => []
  | x :: rest, seen =>
      if seen.contains (keyf x) then dedupByFirst keyf rest seen
      else x :: dedupByFirst keyf rest (seen ++ [keyf x])

/-- The common shape of both node-loop steps: insert under the key
unless the key is already bound. -/
def addByKey {α : Type} (keyf : α → String) (valf : α → Dict)
    (acc : List (String × Dict)) (x : α) : List (String × Dict) :=
  if (acc.map Prod.fst).contains (keyf x) then acc
  else acc ++ [(keyf x, valf x)]

theorem procNode_eq_addByKey (dp : String) (acc : List (String × Dict)) (obj : NeoNode) :
    procNode dp acc obj = addByKey (fun o => toString o.id) (buildNodeData dp) acc obj := rfl

theorem sqlProcNode_eq_addByKey (cfg : SqlCfg) (acc : List (String × Dict)) (row : Dict) :
    sqlProcNode cfg acc row = addByKey (sqlNodeId cfg) (sqlNodeData cfg) acc row := rfl

theorem foldl_addByKey {α : Type} (keyf : α → String) (valf : α → Dict) :
    ∀ (l : List α) (acc : List (String × Dict)),
      l.foldl (addByKey keyf valf) acc =
        acc ++ (dedupByFirst keyf l (acc.map Prod.fst)).map (fun x => (keyf x, valf x)) := by
  intro l
  induction l with
  | nil => intro acc; simp [dedupByFirst]
  | cons x rest ih =>
      intro acc
      by_cases h : (acc.map Prod.fst).contains (keyf x) = true
      · have hstep : addByKey keyf valf acc x = acc := by
          unfold addByKey; rw [if_pos h]
        rw [List.foldl_cons, hstep, ih acc]
        conv_rhs => simp only [dedupByFirst]
        rw [if_pos h]
      · have hstep : addByKey keyf valf acc x = acc ++ [(keyf x, valf x)] := by
          unfold addByKey; rw [if_neg h]
        have hmapfst : ((acc ++ [(keyf x, valf x)]).map Prod.fst) = acc.map Prod.fst ++ [keyf x] := by
          simp
        rw [List.foldl_cons, hstep, ih (acc ++ [(keyf x, valf x)]), hmapfst]
        conv_rhs => simp only [dedupByFirst]
        rw [if_neg h]
        simp [List.append_assoc]

theorem dedupByFirst_sublist {α : Type} (keyf : α → String) :
    ∀ (l : List α) (seen : List String), (dedupByFirst keyf l seen).Sublist l := by
  intro l
  induction l with
  | nil => intro seen; simp [dedupByFirst]
  | cons x rest ih =>
      intro seen
      by_cases h : seen.contains (keyf x)
      · simp only [dedupByFirst, h, if_pos]
        exact (ih seen).trans (List.sublist_cons_self x rest)
      · simp only [dedupByFirst, h, if_neg, Bool.false_eq_true, not_false_eq_true]
        exact (ih (seen ++ [keyf x])).cons₂ x

theorem dedupByFirst_not_seen {α : Type} (keyf : α → String) :
    ∀ (l : List α) (seen : List String) (x : α),
      x ∈ dedupByFirst keyf l seen → keyf x ∉ seen := by
  intro l
  induction l with
  | nil => intro seen x hx; simp [dedupByFirst] at hx
  | cons y rest ih =>
      intro seen x hx
      by_cases h : seen.contains (keyf y)
      · simp only [dedupByFirst, h, if_pos] at hx
        exact ih seen x hx
      · simp only [dedupByFirst, h, if_neg, Bool.false_eq_true, not_false_eq_true] at hx
        rcases List.mem_cons.mp hx with hxy | hx2
        · subst hxy
          intro hmem
          exact h (List.elem_eq_true_of_mem hmem)
        · intro hmem
          exact absurd (List.mem_append_left [keyf y] hmem) (ih (seen ++ [keyf y]) x hx2)

theorem dedupByFirst_keys_nodup {α : Type} (keyf : α → String) :
    ∀ (l : List α) (seen : List String),
      ((dedupByFirst keyf l seen).map keyf).Nodup := by
  intro l
  induction l with
  | nil => intro seen; simp [dedupByFirst]
  | cons y rest ih =>
      intro seen
      by_cases h : seen.contains (keyf y)
      · simp only [dedupByFirst, h, if_pos]
        exact ih seen
      · simp only [dedupByFirst, h, if_neg, Bool.false_eq_true, not_false_eq_true,
          List.map_cons, List.nodup_cons]
        constructor
        · intro hmem
          rcases List.mem_map.mp hmem with ⟨x, hx, hkx⟩
          have := dedupByFirst_not_seen keyf rest (seen ++ [keyf y]) x hx
          exact this (by rw [hkx]; exact List.mem_append_right seen (List.mem_singleton.mpr rfl))
        · exact ih (seen ++ [keyf y])

/-! ## Load-level characterizations -/

/-- The node objects in record order as the loop visits them: `n`, then
`m`, record by record. -/
def neoNodeStream : List NeoRecord → List NeoNode
  | [] => []
  | rec :: rest => rec.n :: rec.m :: neoNodeStream rest

/-- The edge dictionaries of the records whose relationship processing
succeeds (all of them, on any record list a successful load consumes). -/
def neoEdgeList : List NeoRecord → List Dict
  | [] => []
  | rec :: rest =>
      match procRel rec.r with
      | .ok e => e :: neoEdgeList rest
      | .error _ => neoEdgeList rest

theorem neoFold_ok (dp : String) :
    ∀ (recs : List NeoRecord) (st : List (String × Dict) × List Dict),
      (∀ r ∈ recs, structuredRel r.r = true) →
      neoFold dp (recs.map Except.ok) st =
        .ok ((neoNodeStream recs).foldl (procNode dp) st.1, st.2 ++ neoEdgeList recs) := by
  intro recs
  induction recs with
  | nil => intro st h; simp [neoFold, neoNodeStream, neoEdgeList]
  | cons rec rest ih =>
      intro st h
      have hs := h rec (List.mem_cons_self rec rest)
      obtain ⟨rid, rty, sid, eid, props, hr⟩ :
          ∃ rid rty sid eid props, rec.r = .structured rid rty sid eid props := by
        cases hrel : rec.r with
        | structured a b c d e => exact ⟨a, b, c, d, e, rfl⟩
        | legacyTriple a b c => rw [hrel] at hs; simp [structuredRel] at hs
      simp only [List.map_cons, neoFold, neoStep, hr, procRel]
      rw [ih _ (fun r hrr => h r (List.mem_cons_of_mem rec hrr))]
      simp [neoNodeStream, neoEdgeList, hr, procRel, List.append_assoc]

theorem neoFold_error (dp : String) :
    ∀ (recs : List NeoRecord) (e : String) (rest : List (Except String NeoRecord))
      (st : List (String × Dict) × List Dict),
      (∀ r ∈ recs, structuredRel r.r = true) →
      neoFold dp (recs.map Except.ok ++ Except.error e :: rest) st = .error e := by
  intro recs
  induction recs with
  | nil => intro e rest st _; simp [neoFold]
  | cons rec recs2 ih =>
      intro e rest st h
      have hs := h rec (List.mem_cons_self rec recs2)
      obtain ⟨rid, rty, sid, eid, props, hr⟩ :
          ∃ rid rty sid eid props, rec.r = .structured rid rty sid eid props := by
        cases hrel : rec.r with
        | structured a b c d e2 => exact ⟨a, b, c, d, e2, rfl⟩
        | legacyTriple a b c => rw [hrel] at hs; simp [structuredRel] at hs
      simp only [List.map_cons, List.cons_append, neoFold, neoStep, hr, procRel]
      exact ih e rest _ (fun r hrr => h r (List.mem_cons_of_mem rec hrr))

theorem procNode_funext (dp : String) :
    procNode dp = addByKey (fun o : NeoNode => toString o.id) (buildNodeData dp) := rfl

theorem sqlProcNode_funext (cfg : SqlCfg) :
    sqlProcNode cfg = addByKey (sqlNodeId cfg) (sqlNodeData cfg) := rfl

/-- A fully successful Neo4j load: the nodes are exactly the first
occurrence of each node identity in visiting order, the edges are one
per record in order. -/
theorem load_neo4j_ok (dp : String) (recs : List NeoRecord)
    (h : ∀ r ∈ recs, structuredRel r.r = true) :
    load_graph_data_neo4j dp (recs.map Except.ok) =
      .ok ⟨(dedupByFirst (fun o : NeoNode => toString o.id) (neoNodeStream recs) []).map
            (buildNodeData dp),
          neoEdgeList recs⟩ := by
  unfold load_graph_data_neo4j
  rw [neoFold_ok dp recs ([], []) h]
  have hfold : (neoNodeStream recs).foldl (procNode dp) [] =
      (dedupByFirst (fun o : NeoNode => toString o.id) (neoNodeStream recs) []).map
        (fun o => (toString o.id, buildNodeData dp o)) := by
    rw [procNode_funext dp, foldl_addByKey]
    simp
  simp [hfold, List.map_map, Function.comp]

/-- A fully successful SQL load, same shape. -/
theorem load_sql_nodes_eq (cfg : SqlCfg) (ndf rdf : DF) :
    (load_graph_data_sql cfg ndf rdf).nodes =
      (dedupByFirst (sqlNodeId cfg) (ndf.rows.map (rowToDict ndf)) []).map
        (sqlNodeData cfg) := by
  have h : (load_graph_data_sql cfg ndf rdf).nodes =
      ((ndf.rows.map (rowToDict ndf)).foldl (sqlProcNode cfg) []).map Prod.snd := rfl
  rw [h, sqlProcNode_funext cfg, foldl_addByKey]
  simp [List.map_map, Function.comp]

theorem load_sql_edges_eq (cfg : SqlCfg) (ndf rdf : DF) :
    (load_graph_data_sql cfg ndf rdf).edges =
      (rdf.rows.map (rowToDict rdf)).enum.map (fun p => sqlEdgeData cfg p.1 p.2) := rfl

/-- Over any deduplicated stream, the stored ids are pairwise distinct. -/
theorem dedup_map_build_id_nodup {α : Type} (keyf : α → String) (valf : α → Dict)
    (stream : List α) (seen : List String)
    (hid : ∀ x, assocGet (valf x) "id" = some (.str (keyf x))) :
    (((dedupByFirst keyf stream seen).map valf).map
      (fun d => assocGet d "id")).Nodup := by
  have h1 : ((dedupByFirst keyf stream seen).map valf).map (fun d => assocGet d "id") =
      ((dedupByFirst keyf stream seen).map keyf).map
        (fun s => some (PyVal.str s)) := by
    simp only [List.map_map]
    apply List.map_congr_left
    intro x _
    simp only [Function.comp]
    exact hid x
  rw [h1]
  apply List.Nodup.map
  · intro a b hh
    simpa using hh
  · exact dedupByFirst_keys_nodup keyf stream seen

/-! ## Set and sort lemmas (style derivation) -/

theorem pyBeq_str_iff (a b : String) : pyBeq (.str a) (.str b) = true ↔ a = b := by
  simp [pyBeq]

theorem setInsert_subset (acc : List PyVal) (v : PyVal) :
    ∀ x ∈ setInsert acc v, x ∈ acc ∨ x = v := by
  intro x hx
  unfold setInsert at hx
  by_cases h : acc.any (fun y => pyBeq y v) = true
  · rw [if_pos h] at hx; exact Or.inl hx
  · rw [if_neg h] at hx
    rcases List.mem_append.mp hx with h1 | h2
    · exact Or.inl h1
    · exact Or.inr (List.mem_singleton.mp h2)

theorem foldl_setInsert_subset :
    ∀ (l acc : List PyVal) (x : PyVal), x ∈ l.foldl setInsert acc → x ∈ acc ∨ x ∈ l := by
  intro l
  induction l with
  | nil => intro acc x hx; exact Or.inl hx
  | cons y rest ih =>
      intro acc x hx
      rcases ih (setInsert acc y) x hx with h1 | h2
      · rcases setInsert_subset acc y x h1 with h3 | h4
        · exact Or.inl h3
        · exact Or.inr (h4 ▸ List.mem_cons_self x rest)
      · exact Or.inr (List.mem_cons_of_mem y h2)

theorem mem_foldl_setInsert_of_mem_acc :
    ∀ (l acc : List PyVal) (x : PyVal), x ∈ acc → x ∈ l.foldl setInsert acc := by
  intro l
  induction l with
  | nil => intro acc x hx; exact hx
  | cons y rest ih =>
      intro acc x hx
      apply ih (setInsert acc y) x
      unfold setInsert
      by_cases h : acc.any (fun z => pyBeq z y) = true
      · rw [if_pos h]; exact hx
      · rw [if_neg h]; exact List.mem_append_left _ hx

theorem mem_foldl_setInsert_of_mem :
    ∀ (l acc : List PyVal) (x : PyVal), (∀ v ∈ l, ∃ s, v = PyVal.str s) →
      (∀ v ∈ acc, ∃ s, v = PyVal.str s) → x ∈ l → x ∈ l.foldl setInsert acc := by
  intro l
  induction l with
  | nil => intro acc x _ _ hx; simp at hx
  | cons y rest ih =>
      intro acc x hstrl hstracc hx
      have hstracc2 : ∀ v ∈ setInsert acc y, ∃ s, v = PyVal.str s := by
        intro v hv
        rcases setInsert_subset acc y v hv with h1 | h2
        · exact hstracc v h1
        · exact h2 ▸ hstrl y (List.mem_cons_self y rest)
      rcases List.mem_cons.mp hx with hxy | hx2
      · subst hxy
        apply mem_foldl_setInsert_of_mem_acc rest (setInsert acc x) x
        unfold setInsert
        by_cases h : acc.any (fun z => pyBeq z x) = true
        · rw [if_pos h]
          rcases List.any_eq_true.mp h with ⟨z, hz, hbz⟩
          obtain ⟨sz, hsz⟩ := hstracc z hz
          obtain ⟨sx, hsx⟩ := hstrl x (List.mem_cons_self x rest)
          subst hsz; subst hsx
          rw [pyBeq_str_iff] at hbz
          exact hbz ▸ hz
        · rw [if_neg h]
          exact List.mem_append_right acc (List.mem_singleton.mpr rfl)
      · exact ih (setInsert acc y) x
          (fun v hv => hstrl v (List.mem_cons_of_mem y hv)) hstracc2 hx2

theorem nodup_foldl_setInsert :
    ∀ (l acc : List PyVal), (∀ v ∈ l, ∃ s, v = PyVal.str s) →
      (∀ v ∈ acc, ∃ s, v = PyVal.str s) → acc.Nodup → (l.foldl setInsert acc).Nodup := by
  intro l
  induction l with
  | nil => intro acc _ _ hnd; exact hnd
  | cons y rest ih =>
      intro acc hstrl hstracc hnd
      have hstracc2 : ∀ v ∈ setInsert acc y, ∃ s, v = PyVal.str s := by
        intro v hv
        rcases setInsert_subset acc y v hv with h1 | h2
        · exact hstracc v h1
        · exact h2 ▸ hstrl y (List.mem_cons_self y rest)
      apply ih (setInsert acc y)
        (fun v hv => hstrl v (List.mem_cons_of_mem y hv)) hstracc2
      unfold setInsert
      by_cases h : acc.any (fun z => pyBeq z y) = true
      · rw [if_pos h]; exact hnd
      · rw [if_neg h]
        have hy : y ∉ acc := by
          intro hmem
          apply h
          apply List.any_eq_true.mpr
          obtain ⟨sy, hsy⟩ := hstrl y (List.mem_cons_self y rest)
          exact ⟨y, hmem, by subst hsy; rw [pyBeq_str_iff]⟩
        simp [List.nodup_append, hnd, hy]

theorem charListLe_trans :
    ∀ (l1 l2 l3 : List Char), charListLe l1 l2 = true → charListLe l2 l3 = true →
      charListLe l1 l3 = true := by
  intro l1
  induction l1 with
  | nil => intro l2 l3 _ _; rfl
  | cons a as2 ih =>
      intro l2 l3 h12 h23
      cases l2 with
      | nil => simp [charListLe] at h12
      | cons b bs2 =>
          cases l3 with
          | nil => simp [charListLe] at h23
          | cons c cs2 =>
              by_cases hab : a.toNat < b.toNat
              · by_cases hbc : b.toNat < c.toNat
                · simp [charListLe, show a.toNat < c.toNat from by omega]
                · by_cases hcb : c.toNat < b.toNat
                  · simp [charListLe, hbc, hcb] at h23
                  · simp [charListLe, show a.toNat < c.toNat from by omega]
              · by_cases hba : b.toNat < a.toNat
                · simp [charListLe, hab, hba] at h12
                · simp only [charListLe, if_neg hab, if_neg hba] at h12
                  by_cases hbc : b.toNat < c.toNat
                  · simp [charListLe, show a.toNat < c.toNat from by omega]
                  · by_cases hcb : c.toNat < b.toNat
                    · simp [charListLe, hbc, hcb] at h23
                    · simp only [charListLe, if_neg hbc, if_neg hcb] at h23
                      have hac : ¬ a.toNat < c.toNat := by omega
                      have hca : ¬ c.toNat < a.toNat := by omega
                      simp only [charListLe, if_neg hac, if_neg hca]
                      exact ih bs2 cs2 h12 h23

theorem charListLe_total :
    ∀ (l1 l2 : List Char), charListLe l1 l2 = false → charListLe l2 l1 = true := by
  intro l1
  induction l1 with
  | nil => intro l2 h; simp [charListLe] at h
  | cons a as2 ih =>
      intro l2 h
      cases l2 with
      | nil => rfl
      | cons b bs2 =>
          by_cases hab : a.toNat < b.toNat
          · simp [charListLe, hab] at h
          · by_cases hba : b.toNat < a.toNat
            · simp [charListLe, hba]
            · simp only [charListLe, if_neg hab, if_neg hba] at h
              simp only [charListLe, if_neg hba, if_neg hab]
              exact ih bs2 h

/-- String comparison transfers along `pyValLe`. -/
theorem pyValLe_str_trans (x y z : String)
    (h1 : pyValLe (.str x) (.str y) = true) (h2 : pyValLe (.str y) (.str z) = true) :
    pyValLe (.str x) (.str z) = true := by
  simp only [pyValLe, pyStrLe] at h1 h2 ⊢
  exact charListLe_trans x.data y.data z.data h1 h2

theorem pyValLe_str_total (x y : String)
    (h : ¬ pyValLe (.str x) (.str y) = true) : pyValLe (.str y) (.str x) = true := by
  simp only [pyValLe, pyStrLe] at h ⊢
  exact charListLe_total x.data y.data (Bool.not_eq_true _ ▸ Bool.of_not_eq_true h)

theorem insertSorted_perm (a : PyVal) :
    ∀ l : List PyVal, (insertSorted a l).Perm (a :: l) := by
  intro l
  induction l with
  | nil => simp [insertSorted]
  | cons b bs ih =>
      by_cases h : pyValLe a b = true
      · unfold insertSorted; rw [if_pos h]
      · unfold insertSorted; rw [if_neg h]
        exact (ih.cons b).trans (List.Perm.swap a b bs)

theorem pySorted_perm : ∀ l : List PyVal, (pySorted l).Perm l := by
  intro l
  induction l with
  | nil => simp [pySorted]
  | cons a rest ih =>
      unfold pySorted
      exact (insertSorted_perm a (pySorted rest)).trans (ih.cons a)

theorem insertSorted_pairwise (a : PyVal) :
    ∀ l : List PyVal, (∃ s, a = PyVal.str s) → (∀ v ∈ l, ∃ s, v = PyVal.str s) →
      l.Pairwise (fun x y => pyValLe x y = true) →
      (insertSorted a l).Pairwise (fun x y => pyValLe x y = true) := by
  intro l
  induction l with
  | nil => intro _ _ _; simp [insertSorted]
  | cons b bs ih =>
      intro ha hl hp
      obtain ⟨sa, hsa⟩ := ha
      obtain ⟨sb, hsb⟩ := hl b (List.mem_cons_self b bs)
      by_cases h : pyValLe a b = true
      · unfold insertSorted; rw [if_pos h]
        apply List.Pairwise.cons
        · intro y hy
          rcases List.mem_cons.mp hy with hyb | hybs
          · exact hyb ▸ h
          · obtain ⟨sy, hsy⟩ := hl y (List.mem_cons_of_mem b hybs)
            have hby : pyValLe b y = true := List.rel_of_pairwise_cons hp hybs
            subst hsa; subst hsb; subst hsy
            exact pyValLe_str_trans sa sb sy h hby
        · exact hp
      · unfold insertSorted; rw [if_neg h]
        apply List.Pairwise.cons
        · intro y hy
          have hy2 := (insertSorted_perm a bs).mem_iff.mp hy
          rcases List.mem_cons.mp hy2 with hya | hybs
          · subst hya
            subst hsa; subst hsb
            exact pyValLe_str_total sa sb h
          · exact List.rel_of_pairwise_cons hp hybs
        · exact ih ⟨sa, hsa⟩ (fun v hv => hl v (List.mem_cons_of_mem b hv)) hp.of_cons

theorem pySorted_pairwise :
    ∀ l : List PyVal, (∀ v ∈ l, ∃ s, v = PyVal.str s) →
      (pySorted l).Pairwise (fun x y => pyValLe x y = true) := by
  intro l
  induction l with
  | nil => intro _; simp [pySorted]
  | cons a rest ih =>
      intro hl
      unfold pySorted
      apply insertSorted_pairwise a (pySorted rest) (hl a (List.mem_cons_self a rest))
      · intro v hv
        exact hl v (List.mem_cons_of_mem a ((pySorted_perm rest).mem_iff.mp hv))
      · exact ih (fun v hv => hl v (List.mem_cons_of_mem a hv))

theorem sqlNodeData_name (cfg : SqlCfg) (row : Dict) :
    assocGet (sqlNodeData cfg row) "name" =
      some (dictGetD
        (dictSet (dictSet row "id" (.str (sqlNodeId cfg row))) "label"
          (pyOr (dictGetD (dictSet row "id" (.str (sqlNodeId cfg row)))
              cfg.node_label_col (.str ""))
            (.str DEFAULT_NODE_LABEL)))
        cfg.node_name_col
        (pyOr (dictGetD (dictSet row "id" (.str (sqlNodeId cfg row)))
            cfg.node_label_col (.str ""))
          (.str DEFAULT_NODE_LABEL))) := by
  unfold sqlNodeData
  rw [assocGet_dictSet_self]

theorem sqlEdgeData_source (cfg : SqlCfg) (idx : Nat) (row : Dict) :
    assocGet (sqlEdgeData cfg idx row) "source" =
      some (.str (pyStr ((assocGet (dictSet row "id" (.str ("edge_" ++ toString idx)))
        cfg.rel_source_col).getD .none))) := by
  unfold sqlEdgeData
  rw [assocGet_dictSet_ne _ _ _ _ (by decide),
      assocGet_dictSet_ne _ _ _ _ (by decide),
      assocGet_dictSet_self]

theorem sqlEdgeData_target (cfg : SqlCfg) (idx : Nat) (row : Dict) :
    assocGet (sqlEdgeData cfg idx row) "target" =
      some (.str (pyStr ((assocGet (dictSet (dictSet row "id"
          (.str ("edge_" ++ toString idx))) "source"
          (.str (pyStr ((assocGet (dictSet row "id" (.str ("edge_" ++ toString idx)))
            cfg.rel_source_col).getD .none))))
        cfg.rel_target_col).getD .none))) := by
  unfold sqlEdgeData
  rw [assocGet_dictSet_ne _ _ _ _ (by decide), assocGet_dictSet_self]

/-! ## Claim C1 -/

/-- A node record carrying a driver temporal value among its
properties. -/
def c1node : NeoNode :=
  ⟨1, ["Person"], [("created", .temporal "2024-05-01T12:00:00")]⟩

/-- Claim C1 as stated is false on the code: neither adapter converts
anything — a temporal property value is attached to the `NodeElement`
as the temporal object itself, not as its ISO-8601 string (which is
what the normalizer described in the spec would produce), and that value cannot be
encoded by a textual interchange codec at all. -/
theorem c1_counterexample :
    assocGet (buildNodeData "full_name" c1node) "created" =
        some (.temporal "2024-05-01T12:00:00") ∧
    spec_normalize (.temporal "2024-05-01T12:00:00") = .str "2024-05-01T12:00:00" ∧
    (PyVal.temporal "2024-05-01T12:00:00") ≠ (PyVal.str "2024-05-01T12:00:00") ∧
    specJsonSerializable (.temporal "2024-05-01T12:00:00") = false :=
  ⟨rfl, rfl, fun h => PyVal.noConfusion h, rfl⟩

/-- Claim C1 (amended): every property value attached to a node or
edge element outside the derived meta fields is the source value passed
through entirely unchanged — no ISO-8601 conversion, no element-wise or
key-wise rewriting — so the element set round-trips through a textual
encoding only when every source value already does. -/
theorem c1_properties_pass_through :
    (∀ (dp : String) (obj : NeoNode) (k : String),
        k ≠ "id" → k ≠ "labels" → k ≠ "label" → k ≠ "name" →
        assocGet (buildNodeData dp obj) k = assocGet obj.props k) ∧
    (∀ (rid : Int) (rtype : String) (startId endId : Int) (props : Dict) (k : String),
        k ≠ "id" → k ≠ "source" → k ≠ "target" → k ≠ "label" →
        assocGet (buildRelData rid rtype startId endId props) k = assocGet props k) ∧
    (∀ (cfg : SqlCfg) (row : Dict) (k : String),
        k ≠ "id" → k ≠ "label" → k ≠ "name" →
        assocGet (sqlNodeData cfg row) k = assocGet row k) ∧
    (∀ (cfg : SqlCfg) (idx : Nat) (row : Dict) (k : String),
        k ≠ "id" → k ≠ "source" → k ≠ "target" → k ≠ "label" →
        assocGet (sqlEdgeData cfg idx row) k = assocGet row k) :=
  ⟨buildNodeData_other, buildRelData_other, sqlNodeData_other, sqlEdgeData_other⟩

/-- Witness for C1 (amended) at a concrete temporal-valued property. -/
theorem c1_witness :
    assocGet (buildNodeData "full_name" c1node) "created" =
      assocGet c1node.props "created" :=
  c1_properties_pass_through.1 "full_name" c1node "created"
    (by decide) (by decide) (by decide) (by decide)

/-! ## Claim C2 -/

/-- Claim C2: whenever query execution or row iteration raises —
including partway through the Neo4j record stream after any number of
successfully processed records, or in either of the two SQL reads —
the handler reports the underlying message and hands no element set
(not even the nodes processed so far) to the caller or renderer. -/
theorem c2_load_atomicity :
    (∀ (dp : String) (rows : List (Except String NeoRecord)) (e : String),
        load_graph_data_neo4j dp rows = .error e →
        neo4j_load_handler dp rows =
          (Option.none, some ("Error loading data from Neo4j: " ++ e))) ∧
    (∀ (cfg : SqlCfg) (nodesRes relsRes : Except String DF) (e : String),
        load_graph_data_sql_run cfg nodesRes relsRes = .error e →
        sql_load_handler cfg nodesRes relsRes =
          (Option.none, some ("Error loading data from SQL: " ++ e))) ∧
    (∀ (dp : String) (recs : List NeoRecord) (e : String)
        (rest : List (Except String NeoRecord)),
        (∀ r ∈ recs, structuredRel r.r = true) →
        neo4j_load_handler dp (recs.map Except.ok ++ Except.error e :: rest) =
          (Option.none, some ("Error loading data from Neo4j: " ++ e))) ∧
    (∀ (cfg : SqlCfg) (e : String) (relsRes : Except String DF),
        sql_load_handler cfg (.error e) relsRes =
          (Option.none, some ("Error loading data from SQL: " ++ e))) ∧
    (∀ (cfg : SqlCfg) (ndf : DF) (e : String),
        sql_load_handler cfg (.ok ndf) (.error e) =
          (Option.none, some ("Error loading data from SQL: " ++ e))) := by
  refine ⟨?_, ?_, ?_, ?_, ?_⟩
  · intro dp rows e h
    unfold neo4j_load_handler
    rw [h]
  · intro cfg nodesRes relsRes e h
    unfold sql_load_handler
    rw [h]
  · intro dp recs e rest h
    unfold neo4j_load_handler load_graph_data_neo4j
    rw [neoFold_error dp recs e rest ([], []) h]
  · intro cfg e relsRes; rfl
  · intro cfg ndf e; rfl

/-- One good record before the stream raises. -/
def c2rec : NeoRecord :=
  ⟨⟨1, ["Person"], []⟩, .structured 10 "KNOWS" 1 2 [], ⟨2, ["Person"], []⟩⟩

/-- Witness for C2: a stream that fails after one processed record
yields no elements and the reported message, and every erroring load is
reported with its message by the handlers. -/
theorem c2_witness :
    neo4j_load_handler "full_name"
        ([c2rec].map Except.ok ++ Except.error "boom" :: []) =
      (Option.none, some "Error loading data from Neo4j: boom") ∧
    neo4j_load_handler "full_name" [Except.error "down"] =
      (Option.none, some "Error loading data from Neo4j: down") ∧
    sql_load_handler ⟨"Node_ID", "Label", "Name", "Source_ID", "Target_ID",
        "Relationship_Type"⟩ (.error "no table") (.ok ⟨[], []⟩) =
      (Option.none, some "Error loading data from SQL: no table") :=
  ⟨c2_load_atomicity.2.2.1 "full_name" [c2rec] "boom" [] (by decide),
   c2_load_atomicity.1 "full_name" [Except.error "down"] "down" rfl,
   c2_load_atomicity.2.1 ⟨"Node_ID", "Label", "Name", "Source_ID", "Target_ID",
     "Relationship_Type"⟩ (.error "no table") (.ok ⟨[], []⟩) "no table" rfl⟩

/-! ## Claim C3 -/

/-- Claim C3: in a single load each distinct source node identity
yields exactly one `NodeElement`: the nodes list is exactly the
first occurrence of each identity, in visiting order and built from
that first occurrence (later occurrences are discarded without touching
the stored element), and the stored ids are pairwise distinct. -/
theorem c3_node_dedup_first_wins :
    (∀ (dp : String) (recs : List NeoRecord),
        (∀ r ∈ recs, structuredRel r.r = true) →
        ∃ el, load_graph_data_neo4j dp (recs.map Except.ok) = .ok el ∧
          el.nodes = (dedupByFirst (fun o : NeoNode => toString o.id)
              (neoNodeStream recs) []).map (buildNodeData dp) ∧
          (el.nodes.map (fun d => assocGet d "id")).Nodup) ∧
    (∀ (cfg : SqlCfg) (ndf rdf : DF),
        (load_graph_data_sql cfg ndf rdf).nodes =
          (dedupByFirst (sqlNodeId cfg) (ndf.rows.map (rowToDict ndf)) []).map
            (sqlNodeData cfg) ∧
        ((load_graph_data_sql cfg ndf rdf).nodes.map
          (fun d => assocGet d "id")).Nodup) := by
  constructor
  · intro dp recs h
    refine ⟨_, load_neo4j_ok dp recs h, rfl, ?_⟩
    exact dedup_map_build_id_nodup _ _ _ _ (fun o => buildNodeData_id dp o)
  · intro cfg ndf rdf
    refine ⟨load_sql_nodes_eq cfg ndf rdf, ?_⟩
    rw [load_sql_nodes_eq cfg ndf rdf]
    exact dedup_map_build_id_nodup _ _ _ _ (fun row => sqlNodeData_id cfg row)

/-- Two records re-mentioning node 1 with different property bags. -/
def c3recs : List NeoRecord :=
  [⟨⟨1, ["Person"], [("full_name", .str "Ada")]⟩,
    .structured 10 "KNOWS" 1 2 [], ⟨2, ["Person"], []⟩⟩,
   ⟨⟨1, ["Person"], [("full_name", .str "IGNORED")]⟩,
    .structured 11 "KNOWS" 1 2 [], ⟨2, ["Person"], []⟩⟩]

/-- Witness for C3: the duplicate identity collapses to one element
built from the first occurrence. -/
theorem c3_witness :
    ∃ el, load_graph_data_neo4j "full_name" (c3recs.map Except.ok) = .ok el ∧
      el.nodes = (dedupByFirst (fun o : NeoNode => toString o.id)
          (neoNodeStream c3recs) []).map (buildNodeData "full_name") ∧
      (el.nodes.map (fun d => assocGet d "id")).Nodup :=
  c3_node_dedup_first_wins.1 "full_name" c3recs (by decide)

/-! ## Claim C4 -/

/-- A record whose relationship value is the legacy
(start-properties, type, end-properties) triple. -/
def c4rec : NeoRecord :=
  ⟨⟨1, ["Person"], []⟩,
   .legacyTriple [("a", .int 1)] "KNOWS" [("b", .int 2)],
   ⟨2, ["Person"], []⟩⟩

/-- Claim C4 as stated is false on the code: there is no fallback
branch — the attribute accesses on the triple raise, and the case is
surfaced to the user as a load error with no `EdgeElement` produced at
all. -/
theorem c4_counterexample :
    neo4j_load_handler "full_name" [Except.ok c4rec] =
      (Option.none, some ("Error loading data from Neo4j: " ++ tupleKeysError)) := rfl

/-- Claim C4 (amended): the graph adapter handles only the structured
relationship shape; a record whose relationship value is a plain
(start-properties, type, end-properties) triple makes the load fail and
the failure is surfaced through the generic error path — it is not
handled locally, and no element set is produced. -/
theorem c4_legacy_triple_is_load_error :
    ∀ (dp : String) (n m : NeoNode) (sp ep : Dict) (ty : String)
      (rest : List (Except String NeoRecord)),
      neo4j_load_handler dp (Except.ok ⟨n, .legacyTriple sp ty ep, m⟩ :: rest) =
        (Option.none, some ("Error loading data from Neo4j: " ++ tupleKeysError)) := by
  intro dp n m sp ep ty rest
  rfl

/-! ## Claim C5 -/

/-- A record whose relationship native id (7) coincides with the start
start node native id (7) — legal in Neo4j, where node and relationship id
spaces are independent counters. -/
def c5rec : NeoRecord :=
  ⟨⟨7, ["Person"], []⟩, .structured 7 "KNOWS" 7 8 [], ⟨8, ["Person"], []⟩⟩

/-- Claim C5 as stated is false on the code: the edge id is
`str(r.id)` with no prefix, so it collides with the node id "7" in the
same element set. -/
theorem c5_counterexample :
    (load_graph_data_neo4j "full_name" [Except.ok c5rec]).map
        (fun el => (el.edges.map (fun d => assocGet d "id"),
                    el.nodes.map (fun d => assocGet d "id"))) =
      Except.ok ([some (.str "7")], [some (.str "7"), some (.str "8")]) := rfl

/-- Claim C5 (amended): the id attached to every edge is the bare
stringified native relationship identity — no prefix is attached, and
nothing prevents it from colliding with a node id. -/
theorem c5_edge_id_is_bare_native_id :
    ∀ (rid : Int) (rtype : String) (startId endId : Int) (props : Dict),
      assocGet (buildRelData rid rtype startId endId props) "id" =
        some (.str (toString rid)) :=
  buildRelData_id

/-! ## Claim C6 -/

theorem styles_node_label_map (elements : Elements) :
    (create_dynamic_styles elements).1.map NodeStyle.label =
      pySorted (setOfList (nodeLabelVals elements)) := by
  have h : (create_dynamic_styles elements).1 =
      (pySorted (setOfList (nodeLabelVals elements))).enum.map
        (fun p => ⟨p.2, default_colors.getD (p.1 % default_colors.length) "",
          "name", "circle"⟩) := rfl
  rw [h, List.map_map]
  have h2 : (NodeStyle.label ∘ fun p : Nat × PyVal =>
      (⟨p.2, default_colors.getD (p.1 % default_colors.length) "",
        "name", "circle"⟩ : NodeStyle)) = Prod.snd := rfl
  rw [h2]
  exact List.enumFrom_map_snd 0 _

theorem styles_edge_label_map (elements : Elements) :
    (create_dynamic_styles elements).2.map EdgeStyle.label =
      pySorted (setOfList (edgeLabelVals elements)) := by
  have h : (create_dynamic_styles elements).2 =
      (pySorted (setOfList (edgeLabelVals elements))).map
        (fun rel => ⟨rel, Option.none, true⟩) := rfl
  rw [h, List.map_map]
  have h2 : (EdgeStyle.label ∘ fun rel : PyVal =>
      (⟨rel, Option.none, true⟩ : EdgeStyle)) = id := rfl
  rw [h2, List.map_id]

theorem styles_node_color_map (elements : Elements) :
    (create_dynamic_styles elements).1.map NodeStyle.color =
      (List.range (create_dynamic_styles elements).1.length).map
        (fun i => default_colors.getD (i % default_colors.length) "") := by
  have h : (create_dynamic_styles elements).1 =
      (pySorted (setOfList (nodeLabelVals elements))).enum.map
        (fun p => ⟨p.2, default_colors.getD (p.1 % default_colors.length) "",
          "name", "circle"⟩) := rfl
  rw [h, List.map_map, List.length_map, List.enum_length]
  have h2 : (NodeStyle.color ∘ fun p : Nat × PyVal =>
      (⟨p.2, default_colors.getD (p.1 % default_colors.length) "",
        "name", "circle"⟩ : NodeStyle)) =
      (fun i => default_colors.getD (i % default_colors.length) "") ∘ Prod.fst := rfl
  rw [h2, ← List.map_map]
  congr 1
  rw [List.range_eq_range']
  exact List.enumFrom_map_fst 0 _

theorem mem_setOfList_iff (l : List PyVal)
    (hstr : ∀ v ∈ l, ∃ s, v = PyVal.str s) (x : PyVal) :
    x ∈ setOfList l ↔ x ∈ l := by
  constructor
  · intro hx
    rcases foldl_setInsert_subset l [] x hx with h1 | h2
    · simp at h1
    · exact h2
  · intro hx
    exact mem_foldl_setInsert_of_mem l [] x hstr (by simp) hx

/-- Claim C6: the style deriver yields exactly one node style per
distinct node label and one edge style per distinct edge label
(duplicate-free, same membership), sorts the labels, assigns the i-th
sorted node label the palette color at index i mod 5 — and on the six
labels of the claim Account and Person both receive palette index 0. -/
theorem c6_style_derivation :
    (∀ elements : Elements,
      (create_dynamic_styles elements).1.map NodeStyle.color =
        (List.range (create_dynamic_styles elements).1.length).map
          (fun i => default_colors.getD (i % default_colors.length) "") ∧
      ((∀ v ∈ nodeLabelVals elements, ∃ s, v = PyVal.str s) →
        ((create_dynamic_styles elements).1.map NodeStyle.label).Nodup ∧
        (∀ l, l ∈ (create_dynamic_styles elements).1.map NodeStyle.label ↔
          l ∈ nodeLabelVals elements) ∧
        ((create_dynamic_styles elements).1.map NodeStyle.label).Pairwise
          (fun a b => pyValLe a b = true)) ∧
      ((∀ v ∈ edgeLabelVals elements, ∃ s, v = PyVal.str s) →
        ((create_dynamic_styles elements).2.map EdgeStyle.label).Nodup ∧
        (∀ l, l ∈ (create_dynamic_styles elements).2.map EdgeStyle.label ↔
          l ∈ edgeLabelVals elements) ∧
        ((create_dynamic_styles elements).2.map EdgeStyle.label).Pairwise
          (fun a b => pyValLe a b = true))) ∧
    create_dynamic_styles
        ⟨[[("label", .str "Person")], [("label", .str "Company")],
          [("label", .str "Event")], [("label", .str "Location")],
          [("label", .str "Account")], [("label", .str "Device")]], []⟩ =
      ([⟨.str "Account", "#2A629A", "name", "circle"⟩,
        ⟨.str "Company", "#FF7F3E", "name", "circle"⟩,
        ⟨.str "Device", "#C0C0C0", "name", "circle"⟩,
        ⟨.str "Event", "#008000", "name", "circle"⟩,
        ⟨.str "Location", "#800080", "name", "circle"⟩,
        ⟨.str "Person", "#2A629A", "name", "circle"⟩], []) := by
  constructor
  · intro elements
    refine ⟨styles_node_color_map elements, ?_, ?_⟩
    · intro hstr
      have hstrset : ∀ v ∈ setOfList (nodeLabelVals elements), ∃ s, v = PyVal.str s := by
        intro v hv
        rcases foldl_setInsert_subset (nodeLabelVals elements) [] v hv with h1 | h2
        · simp at h1
        · exact hstr v h2
      refine ⟨?_, ?_, ?_⟩
      · rw [styles_node_label_map]
        exact (pySorted_perm _).nodup_iff.mpr
          (nodup_foldl_setInsert (nodeLabelVals elements) [] hstr (by simp) List.nodup_nil)
      · intro l
        rw [styles_node_label_map]
        rw [(pySorted_perm _).mem_iff]
        exact mem_setOfList_iff (nodeLabelVals elements) hstr l
      · rw [styles_node_label_map]
        exact pySorted_pairwise _ hstrset
    · intro hstr
      have hstrset : ∀ v ∈ setOfList (edgeLabelVals elements), ∃ s, v = PyVal.str s := by
        intro v hv
        rcases foldl_setInsert_subset (edgeLabelVals elements) [] v hv with h1 | h2
        · simp at h1
        · exact hstr v h2
      refine ⟨?_, ?_, ?_⟩
      · rw [styles_edge_label_map]
        exact (pySorted_perm _).nodup_iff.mpr
          (nodup_foldl_setInsert (edgeLabelVals elements) [] hstr (by simp) List.nodup_nil)
      · intro l
        rw [styles_edge_label_map]
        rw [(pySorted_perm _).mem_iff]
        exact mem_setOfList_iff (edgeLabelVals elements) hstr l
      · rw [styles_edge_label_map]
        exact pySorted_pairwise _ hstrset
  · rfl

/-- Witness for C6 at the six labels of the claim. -/
theorem c6_witness :
    ((create_dynamic_styles
        ⟨[[("label", .str "Person")], [("label", .str "Company")],
          [("label", .str "Event")], [("label", .str "Location")],
          [("label", .str "Account")], [("label", .str "Device")]], []⟩).1.map
      NodeStyle.label).Nodup ∧
    ((create_dynamic_styles
        ⟨[[("label", .str "Person")], [("label", .str "Company")],
          [("label", .str "Event")], [("label", .str "Location")],
          [("label", .str "Account")], [("label", .str "Device")]], []⟩).1.map
      NodeStyle.label).Pairwise (fun a b => pyValLe a b = true) ∧
    ((create_dynamic_styles
        ⟨[[("label", .str "Person")], [("label", .str "Company")],
          [("label", .str "Event")], [("label", .str "Location")],
          [("label", .str "Account")], [("label", .str "Device")]], []⟩).2.map
      EdgeStyle.label).Nodup := by
  have hstr : ∀ v ∈ nodeLabelVals
      ⟨[[("label", .str "Person")], [("label", .str "Company")],
        [("label", .str "Event")], [("label", .str "Location")],
        [("label", .str "Account")], [("label", .str "Device")]], []⟩,
      ∃ s, v = PyVal.str s := by
    intro v hv
    have hl : nodeLabelVals
        ⟨[[("label", .str "Person")], [("label", .str "Company")],
          [("label", .str "Event")], [("label", .str "Location")],
          [("label", .str "Account")], [("label", .str "Device")]], []⟩ =
        [.str "Person", .str "Company", .str "Event", .str "Location",
         .str "Account", .str "Device"] := rfl
    rw [hl] at hv
    simp only [List.mem_cons, List.not_mem_nil, or_false] at hv
    rcases hv with h | h | h | h | h | h
    · exact ⟨"Person", h⟩
    · exact ⟨"Company", h⟩
    · exact ⟨"Event", h⟩
    · exact ⟨"Location", h⟩
    · exact ⟨"Account", h⟩
    · exact ⟨"Device", h⟩
  obtain ⟨hnodup, _, hpair⟩ := (c6_style_derivation.1
    ⟨[[("label", .str "Person")], [("label", .str "Company")],
      [("label", .str "Event")], [("label", .str "Location")],
      [("label", .str "Account")], [("label", .str "Device")]], []⟩).2.1 hstr
  have hedge := ((c6_style_derivation.1
    ⟨[[("label", .str "Person")], [("label", .str "Company")],
      [("label", .str "Event")], [("label", .str "Location")],
      [("label", .str "Account")], [("label", .str "Device")]], []⟩).2.2
    (fun v hv => absurd hv (List.not_mem_nil v))).1
  exact ⟨hnodup, hpair, hedge⟩

/-! ## Claim C7 -/

/-- Claim C7 as universally stated is false in one corner of the
relational adapter: with the label column configured as the literal
name "id" — a column absent from the result columns — the label `get`
finds the id meta key the adapter itself assigned one line earlier, so
the label becomes the node id string, not "Observation". -/
theorem c7_counterexample :
    "id" ∉ (⟨["Node_ID"], [[.int 5]]⟩ : DF).cols ∧
    assocGet (sqlNodeData ⟨"Node_ID", "id", "Name", "S", "T", "R"⟩
        (rowToDict ⟨["Node_ID"], [[.int 5]]⟩ [PyVal.int 5])) "label" =
      some (.str "5") ∧
    some (PyVal.str "5") ≠ some (PyVal.str "Observation") := by
  refine ⟨by decide, rfl, ?_⟩
  intro h
  injection h with h2
  injection h2 with h3
  exact absurd h3 (by decide)

/-- Claim C7 (amended): a node whose label information is absent or
empty gets the constant default label "Observation" — an empty native
label set in the graph adapter; an absent or empty-string mapped label
column in the relational adapter, provided the configured label column
is not the literal name "id" (that one is shadowed by the id meta key
the adapter assigns before reading the label). -/
theorem c7_label_fallback :
    (∀ (dp : String) (obj : NeoNode), obj.labels = [] →
        assocGet (buildNodeData dp obj) "label" = some (.str DEFAULT_NODE_LABEL)) ∧
    (∀ (cfg : SqlCfg) (row : Dict), cfg.node_label_col ≠ "id" →
        (assocGet row cfg.node_label_col = Option.none ∨
         assocGet row cfg.node_label_col = some (.str "")) →
        assocGet (sqlNodeData cfg row) "label" = some (.str DEFAULT_NODE_LABEL)) := by
  constructor
  · intro dp obj h
    rw [buildNodeData_label]
    unfold neoDisplayLabel
    rw [h]
    rfl
  · intro cfg row hne h
    rw [sqlNodeData_label]
    have hget : assocGet (dictSet row "id" (.str (sqlNodeId cfg row))) cfg.node_label_col
        = assocGet row cfg.node_label_col := assocGet_dictSet_ne _ _ _ _ hne
    rcases h with h | h
    · simp [dictGetD, hget, h, pyOr, pyTruthy, show "".isEmpty = true from rfl]
    · simp [dictGetD, hget, h, pyOr, pyTruthy, show "".isEmpty = true from rfl]

/-- A graph node with no labels, and a relational row with no label
column. -/
def c7node : NeoNode := ⟨3, [], [("full_name", .str "Ada")]⟩

def c7cfg : SqlCfg :=
  ⟨"Node_ID", "Label", "Name", "Source_ID", "Target_ID", "Relationship_Type"⟩

/-- Witness for C7 on both adapters. -/
theorem c7_witness :
    assocGet (buildNodeData "full_name" c7node) "label" = some (.str "Observation") ∧
    assocGet (sqlNodeData c7cfg [("Node_ID", .int 1)]) "label" =
      some (.str "Observation") :=
  ⟨c7_label_fallback.1 "full_name" c7node rfl,
   c7_label_fallback.2 c7cfg [("Node_ID", .int 1)] (by decide) (Or.inl rfl)⟩

/-! ## Claim C8 -/

/-- Claim C8 as universally stated is false in one corner: with the
relationship-type column configured as the literal name "id" — absent
from the result columns — the type `get` finds the id meta key assigned
three lines earlier, so the edge label becomes "edge_0", not
"RELATED". -/
theorem c8_counterexample :
    "id" ∉ (⟨["Source_ID"], [[.int 1]]⟩ : DF).cols ∧
    assocGet (sqlEdgeData ⟨"N", "L", "Nm", "Source_ID", "Target_ID", "id"⟩ 0
        (rowToDict ⟨["Source_ID"], [[.int 1]]⟩ [PyVal.int 1])) "label" =
      some (.str "edge_0") ∧
    some (PyVal.str "edge_0") ≠ some (PyVal.str "RELATED") := by
  refine ⟨by decide, rfl, ?_⟩
  intro h
  injection h with h2
  injection h2 with h3
  exact absurd h3 (by decide)

/-- Claim C8 (amended): every mapped-column read in the relational
adapter is a `get` with a default, so an absent configured column never
raises; if the relationship-type column is absent from the result
columns and is not one of the adapter-injected meta keys
("id"/"source"/"target", which shadow the read), every edge label is
"RELATED". -/
theorem c8_missing_type_col_defaults :
    ∀ (cfg : SqlCfg) (ndf rdf : DF),
      cfg.rel_type_col ∉ rdf.cols →
      cfg.rel_type_col ≠ "id" → cfg.rel_type_col ≠ "source" → cfg.rel_type_col ≠ "target" →
      ∀ e ∈ (load_graph_data_sql cfg ndf rdf).edges,
        assocGet e "label" = some (.str "RELATED") := by
  intro cfg ndf rdf hnm h1 h2 h3 e he
  rw [load_sql_edges_eq] at he
  rcases List.mem_map.mp he with ⟨p, hp, hpe⟩
  subst hpe
  have hrow : p.2 ∈ rdf.rows.map (rowToDict rdf) := by
    have hmem : p.2 ∈ List.map Prod.snd
        (List.enumFrom 0 (rdf.rows.map (rowToDict rdf))) :=
      List.mem_map_of_mem Prod.snd hp
    rwa [List.enumFrom_map_snd 0] at hmem
  rcases List.mem_map.mp hrow with ⟨vals, _, hvals⟩
  rw [sqlEdgeData_label]
  unfold dictGetD
  rw [assocGet_dictSet_ne _ _ _ _ h3, assocGet_dictSet_ne _ _ _ _ h2,
      assocGet_dictSet_ne _ _ _ _ h1, ← hvals]
  unfold rowToDict
  rw [assocGet_zip_of_not_mem _ _ _ hnm]
  rfl

def c8cfg : SqlCfg :=
  ⟨"Node_ID", "Label", "Name", "Source_ID", "Target_ID", "Relationship_Type"⟩

def c8ndf : DF := ⟨["Node_ID"], [[.int 1]]⟩

def c8rdf : DF := ⟨["Source_ID", "Target_ID"], [[.int 1, .int 1]]⟩

/-- Witness for C8: one relationship row without a type column. -/
theorem c8_witness :
    assocGet (sqlEdgeData c8cfg 0 (rowToDict c8rdf [.int 1, .int 1])) "label" =
      some (.str "RELATED") :=
  c8_missing_type_col_defaults c8cfg c8ndf c8rdf (by decide) (by decide) (by decide)
    (by decide) (sqlEdgeData c8cfg 0 (rowToDict c8rdf [.int 1, .int 1]))
    (by
      have h : (load_graph_data_sql c8cfg c8ndf c8rdf).edges =
          [sqlEdgeData c8cfg 0 (rowToDict c8rdf [.int 1, .int 1])] := rfl
      rw [h]
      exact List.mem_singleton.mpr rfl)

/-! ## Claim C9 -/

/-- Claim C9: in every element of either adapter the derived meta
fields are assigned after the property copy, so a same-named source
property never survives — the looked-up value of each meta key is
exactly the derived value. -/
theorem c9_derived_fields_overwrite :
    (∀ (dp : String) (obj : NeoNode),
        assocGet (buildNodeData dp obj) "id" = some (.str (toString obj.id)) ∧
        assocGet (buildNodeData dp obj) "label" = some (.str (neoDisplayLabel obj)) ∧
        assocGet (buildNodeData dp obj) "name" =
          some (dictGetD
            (dictSet (dictSet (dictSet obj.props "id" (.str (toString obj.id)))
                "labels" (.list (obj.labels.map PyVal.str)))
              "label" (.str (neoDisplayLabel obj)))
            dp (.str (neoDisplayLabel obj)))) ∧
    (∀ (rid : Int) (rtype : String) (startId endId : Int) (props : Dict),
        assocGet (buildRelData rid rtype startId endId props) "id" =
          some (.str (toString rid)) ∧
        assocGet (buildRelData rid rtype startId endId props) "source" =
          some (.str (toString startId)) ∧
        assocGet (buildRelData rid rtype startId endId props) "target" =
          some (.str (toString endId)) ∧
        assocGet (buildRelData rid rtype startId endId props) "label" =
          some (.str rtype)) ∧
    (∀ (cfg : SqlCfg) (row : Dict),
        assocGet (sqlNodeData cfg row) "id" = some (.str (sqlNodeId cfg row)) ∧
        assocGet (sqlNodeData cfg row) "label" =
          some (pyOr (dictGetD (dictSet row "id" (.str (sqlNodeId cfg row)))
              cfg.node_label_col (.str ""))
            (.str DEFAULT_NODE_LABEL)) ∧
        assocGet (sqlNodeData cfg row) "name" =
          some (dictGetD
            (dictSet (dictSet row "id" (.str (sqlNodeId cfg row))) "label"
              (pyOr (dictGetD (dictSet row "id" (.str (sqlNodeId cfg row)))
                  cfg.node_label_col (.str ""))
                (.str DEFAULT_NODE_LABEL)))
            cfg.node_name_col
            (pyOr (dictGetD (dictSet row "id" (.str (sqlNodeId cfg row)))
                cfg.node_label_col (.str ""))
              (.str DEFAULT_NODE_LABEL)))) ∧
    (∀ (cfg : SqlCfg) (idx : Nat) (row : Dict),
        assocGet (sqlEdgeData cfg idx row) "id" =
          some (.str ("edge_" ++ toString idx)) ∧
        assocGet (sqlEdgeData cfg idx row) "source" =
          some (.str (pyStr ((assocGet (dictSet row "id"
              (.str ("edge_" ++ toString idx))) cfg.rel_source_col).getD .none))) ∧
        assocGet (sqlEdgeData cfg idx row) "target" =
          some (.str (pyStr ((assocGet (dictSet (dictSet row "id"
              (.str ("edge_" ++ toString idx))) "source"
              (.str (pyStr ((assocGet (dictSet row "id" (.str ("edge_" ++ toString idx)))
                cfg.rel_source_col).getD .none))))
            cfg.rel_target_col).getD .none))) ∧
        assocGet (sqlEdgeData cfg idx row) "label" =
          some (dictGetD
            (dictSet (dictSet (dictSet row "id" (.str ("edge_" ++ toString idx)))
                "source" (.str (pyStr ((assocGet (dictSet row "id"
                  (.str ("edge_" ++ toString idx))) cfg.rel_source_col).getD .none))))
              "target" (.str (pyStr ((assocGet (dictSet (dictSet row "id"
                  (.str ("edge_" ++ toString idx))) "source"
                  (.str (pyStr ((assocGet (dictSet row "id"
                    (.str ("edge_" ++ toString idx))) cfg.rel_source_col).getD .none))))
                cfg.rel_target_col).getD .none))))
            cfg.rel_type_col (.str "RELATED"))) :=
  ⟨fun dp obj => ⟨buildNodeData_id dp obj, buildNodeData_label dp obj,
      buildNodeData_name dp obj⟩,
   fun rid rtype startId endId props =>
     ⟨buildRelData_id rid rtype startId endId props,
      buildRelData_source rid rtype startId endId props,
      buildRelData_target rid rtype startId endId props,
      buildRelData_label rid rtype startId endId props⟩,
   fun cfg row => ⟨sqlNodeData_id cfg row, sqlNodeData_label cfg row,
     sqlNodeData_name cfg row⟩,
   fun cfg idx row => ⟨sqlEdgeData_id cfg idx row, sqlEdgeData_source cfg idx row,
     sqlEdgeData_target cfg idx row, sqlEdgeData_label cfg idx row⟩⟩

/-! ## Claim C10 -/

theorem dedupByFirst_nil_of_seen {α : Type} (keyf : α → String) :
    ∀ (l : List α) (seen : List String), (∀ x ∈ l, keyf x ∈ seen) →
      dedupByFirst keyf l seen = [] := by
  intro l
  induction l with
  | nil => intro seen _; rfl
  | cons x rest ih =>
      intro seen h
      have hc : seen.contains (keyf x) = true :=
        List.elem_eq_true_of_mem (h x (List.mem_cons_self x rest))
      simp only [dedupByFirst, hc, if_pos]
      exact ih seen (fun y hy => h y (List.mem_cons_of_mem x hy))

theorem dedupByFirst_const_length {α : Type} (keyf : α → String) (s : String) :
    ∀ l : List α, (∀ x ∈ l, keyf x = s) → (dedupByFirst keyf l []).length ≤ 1 := by
  intro l h
  cases l with
  | nil => simp [dedupByFirst]
  | cons x rest =>
      have hx : keyf x = s := h x (List.mem_cons_self x rest)
      have hc : (([] : List String).contains (keyf x)) = false := rfl
      simp only [dedupByFirst, hc, Bool.false_eq_true, if_neg, not_false_eq_true]
      rw [dedupByFirst_nil_of_seen keyf rest ([] ++ [keyf x])]
      · simp
      · intro y hy
        rw [h y (List.mem_cons_of_mem x hy), ← hx]
        exact List.mem_append_right [] (List.mem_singleton.mpr rfl)

/-- Claim C10 as universally stated is false in one corner: with the
source column configured as the literal name "id" — absent from the
result columns — the source `get` finds the id meta key assigned one
line earlier, so the endpoint is "edge_0", not "None". -/
theorem c10_counterexample :
    "id" ∉ (⟨["Relationship_Type"], [[.str "KNOWS"]]⟩ : DF).cols ∧
    assocGet (sqlEdgeData ⟨"N", "L", "Nm", "id", "Target_ID", "Relationship_Type"⟩ 0
        (rowToDict ⟨["Relationship_Type"], [[.str "KNOWS"]]⟩ [PyVal.str "KNOWS"]))
      "source" = some (.str "edge_0") ∧
    some (PyVal.str "edge_0") ≠ some (PyVal.str "None") := by
  refine ⟨by decide, rfl, ?_⟩
  intro h
  injection h with h2
  injection h2 with h3
  exact absurd h3 (by decide)

/-- Claim C10 (amended): a missing configured node-id column makes
every row resolve to the stringified missing-key substitute — the
literal string "None" — so first-wins dedup leaves at most one node; a
missing source or target column likewise gives every edge the literal
string "None" as that endpoint, provided the configured column is not
one of the meta keys the adapter has already assigned into the row
dictionary at the time of the read ("id", and for target also
"source"). -/
theorem c10_missing_mapping_stringifies_none :
    (∀ (cfg : SqlCfg) (ndf rdf : DF),
        cfg.node_id_col ∉ ndf.cols →
        (load_graph_data_sql cfg ndf rdf).nodes.length ≤ 1 ∧
        ∀ d ∈ (load_graph_data_sql cfg ndf rdf).nodes,
          assocGet d "id" = some (.str "None")) ∧
    (∀ (cfg : SqlCfg) (ndf rdf : DF),
        cfg.rel_source_col ∉ rdf.cols → cfg.rel_source_col ≠ "id" →
        ∀ e ∈ (load_graph_data_sql cfg ndf rdf).edges,
          assocGet e "source" = some (.str "None")) ∧
    (∀ (cfg : SqlCfg) (ndf rdf : DF),
        cfg.rel_target_col ∉ rdf.cols →
        cfg.rel_target_col ≠ "id" → cfg.rel_target_col ≠ "source" →
        ∀ e ∈ (load_graph_data_sql cfg ndf rdf).edges,
          assocGet e "target" = some (.str "None")) := by
  refine ⟨?_, ?_, ?_⟩
  · intro cfg ndf rdf h
    have hids : ∀ row ∈ ndf.rows.map (rowToDict ndf), sqlNodeId cfg row = "None" := by
      intro row hrow
      rcases List.mem_map.mp hrow with ⟨vals, _, hv⟩
      rw [← hv]
      unfold sqlNodeId rowToDict
      rw [assocGet_zip_of_not_mem _ _ _ h]
      rfl
    constructor
    · rw [load_sql_nodes_eq, List.length_map]
      exact dedupByFirst_const_length (sqlNodeId cfg) "None" _ hids
    · intro d hd
      rw [load_sql_nodes_eq] at hd
      rcases List.mem_map.mp hd with ⟨row, hrow, hrd⟩
      have hrow2 : row ∈ ndf.rows.map (rowToDict ndf) :=
        (dedupByFirst_sublist (sqlNodeId cfg) _ []).subset hrow
      rw [← hrd, sqlNodeData_id, hids row hrow2]
  · intro cfg ndf rdf hnm hne e he
    rw [load_sql_edges_eq] at he
    rcases List.mem_map.mp he with ⟨p, hp, hpe⟩
    subst hpe
    have hrow : p.2 ∈ rdf.rows.map (rowToDict rdf) := by
      have hmem : p.2 ∈ List.map Prod.snd
          (List.enumFrom 0 (rdf.rows.map (rowToDict rdf))) :=
        List.mem_map_of_mem Prod.snd hp
      rwa [List.enumFrom_map_snd 0] at hmem
    rcases List.mem_map.mp hrow with ⟨vals, _, hvals⟩
    rw [sqlEdgeData_source, assocGet_dictSet_ne _ _ _ _ hne, ← hvals]
    unfold rowToDict
    rw [assocGet_zip_of_not_mem _ _ _ hnm]
    rfl
  · intro cfg ndf rdf hnm hne1 hne2 e he
    rw [load_sql_edges_eq] at he
    rcases List.mem_map.mp he with ⟨p, hp, hpe⟩
    subst hpe
    have hrow : p.2 ∈ rdf.rows.map (rowToDict rdf) := by
      have hmem : p.2 ∈ List.map Prod.snd
          (List.enumFrom 0 (rdf.rows.map (rowToDict rdf))) :=
        List.mem_map_of_mem Prod.snd hp
      rwa [List.enumFrom_map_snd 0] at hmem
    rcases List.mem_map.mp hrow with ⟨vals, _, hvals⟩
    rw [sqlEdgeData_target, assocGet_dictSet_ne _ _ _ _ hne2,
        assocGet_dictSet_ne _ _ _ _ hne1, ← hvals]
    unfold rowToDict
    rw [assocGet_zip_of_not_mem _ _ _ hnm]
    rfl

def c10cfg : SqlCfg :=
  ⟨"Missing_ID", "Label", "Name", "Missing_Source", "Missing_Target", "Relationship_Type"⟩

def c10ndf : DF := ⟨["Label"], [[.str "Person"], [.str "Company"]]⟩

def c10rdf : DF := ⟨["Relationship_Type"], [[.str "KNOWS"]]⟩

/-- Witness for C10: two node rows without the id column collapse to at
most one node; the edge endpoints are the string "None". -/
theorem c10_witness :
    (load_graph_data_sql c10cfg c10ndf c10rdf).nodes.length ≤ 1 ∧
    assocGet (sqlEdgeData c10cfg 0 (rowToDict c10rdf [.str "KNOWS"])) "source" =
      some (.str "None") ∧
    assocGet (sqlEdgeData c10cfg 0 (rowToDict c10rdf [.str "KNOWS"])) "target" =
      some (.str "None") := by
  have hmem : sqlEdgeData c10cfg 0 (rowToDict c10rdf [.str "KNOWS"]) ∈
      (load_graph_data_sql c10cfg c10ndf c10rdf).edges := by
    have h : (load_graph_data_sql c10cfg c10ndf c10rdf).edges =
        [sqlEdgeData c10cfg 0 (rowToDict c10rdf [.str "KNOWS"])] := rfl
    rw [h]
    exact List.mem_singleton.mpr rfl
  refine ⟨(c10_missing_mapping_stringifies_none.1 c10cfg c10ndf c10rdf (by decide)).1,
    c10_missing_mapping_stringifies_none.2.1 c10cfg c10ndf c10rdf (by decide) (by decide)
      _ hmem,
    c10_missing_mapping_stringifies_none.2.2 c10cfg c10ndf c10rdf (by decide) (by decide)
      (by decide) _ hmem⟩

end VisualizeNetwork
